import Mathlib

/-!
Shallow embedding of `src/subtitlerBackend/main.py` (subtitle-editor-pro).

The embedded pieces are the ones the specification calls the core:

* `format_time` (main.py lines 70-75): Python `datetime.timedelta`
  normalisation followed by zero-padded field formatting.  Real-number
  second offsets are modelled as rationals; `timedelta` rounds fractional
  seconds to whole microseconds with ties-to-even (`pyRound`), splits off
  whole days (kept in `delta.days`, *discarded* by `format_time`, which
  only reads `delta.seconds` and `delta.microseconds`), and the formatter
  then divides the within-day seconds into fields.
* `generate_srt` (lines 77-93): per-segment block rendering.  A Python
  dict whose `speaker` key may be absent, `None`, or a string is modelled
  by `speaker : Option (Option String)`.
* `rename_speakers` (lines 140-160): pydantic `Segment.model_dump()`
  always materialises the `speaker` key (value `None` when unset), then
  the speaker map is applied when the current speaker is a key of the map
  and its value is non-empty.
* `refine_diarization` (lines 204-279): speaker-map construction by
  temporal overlap against a fresh diarization, using the semantics of
  the pyannote timeline operations the loop calls (`crop` keeps the
  positive-length intersections, `labels` lists the labels sorted,
  `label_duration` sums the cropped durations, and Python's
  `max(d, key=d.get)` returns the first key attaining the maximum).
  Missing `start`/`end`/`text` keys of the user-supplied JSON segments
  raise `KeyError` inside the endpoint's `try` block and surface as a
  generic HTTP 500, *after* the external diarizer has run; only a JSON
  decode failure is answered with HTTP 400 before any external call.

Python's `str.strip` / `str.startswith` and the sorting of labels are
modelled structurally over `List Char` so that all definitions evaluate.
-/

/-- Python `str.strip()` with no arguments: remove leading and trailing
whitespace (modelled with `Char.isWhitespace`). -/
def pyStrip (s : String) : String :=
  String.mk (((s.data.dropWhile Char.isWhitespace).reverse.dropWhile
    Char.isWhitespace).reverse)

/-- Python `s.startswith(p)`. -/
def strStartsWith (s p : String) : Bool :=
  p.data.isPrefixOf s.data

/-- Python format spec `{n:0w}` for a non-negative integer: decimal
representation left-padded with zeros to a minimum width `w`. -/
def padZero (w : Nat) (n : Nat) : String :=
  String.mk (List.replicate (w - (Nat.repr n).length) '0') ++ Nat.repr n

/-- `datetime.timedelta`'s conversion of a real number of seconds into a
whole number of microseconds: round to nearest, ties to even (the
documented behaviour for fractional-microsecond arguments). -/
def pyRound (q : ℚ) : ℤ :=
  let f := ⌊q⌋
  if q - f < 1/2 then f
  else if (1 : ℚ)/2 < q - f then f + 1
  else if f % 2 = 0 then f else f + 1

/-- The integer part of `format_time` (main.py lines 70-75), applied to the
total number of microseconds held by the `timedelta`.

`delta.seconds` is the within-day seconds (`0 ≤ _ < 86400`; whole days go
to `delta.days`, which `format_time` never reads) and
`delta.microseconds` is the sub-second microsecond count; then
`hours, remainder = divmod(delta.seconds, 3600)`,
`minutes, seconds = divmod(remainder, 60)`,
`milliseconds = delta.microseconds // 1000`, and every field is
zero-padded (`{:02}` / `{:03}`). -/
def formatTimeUsCore (totalUs : ℤ) : String :=
  let withinDayUs := totalUs % 86400000000
  let deltaSeconds := withinDayUs / 1000000
  let deltaMicroseconds := withinDayUs % 1000000
  let hours := deltaSeconds / 3600
  let remainder := deltaSeconds % 3600
  let minutes := remainder / 60
  let seconds := remainder % 60
  let milliseconds := deltaMicroseconds / 1000
  padZero 2 hours.toNat ++ ":" ++ padZero 2 minutes.toNat ++ ":" ++
    padZero 2 seconds.toNat ++ "," ++ padZero 3 milliseconds.toNat

/-- `format_time(seconds)` (main.py lines 70-75). -/
def formatTime (seconds : ℚ) : String :=
  formatTimeUsCore (pyRound (seconds * 1000000))

/-- A segment as `generate_srt` receives it: a Python dict.  The `speaker`
key may be absent (`none`), present with value `None` (`some none`), or
present with a string value (`some (some s)`). -/
structure PySegment where
  start : ℚ
  stop : ℚ
  text : String
  speaker : Option (Option String)
deriving DecidableEq, Repr

/-- Python string interpolation of the `speaker` value inside
`f"[{speaker}]: {text}"`: `str(None)` is `"None"`. -/
def speakerValueStr : Option String → String
  | none => "None"
  | some s => s

/-- The text line of one SRT block (main.py lines 83-87):
`text = segment['text'].strip()`, then
`line = f"[{speaker}]: {text}" if 'speaker' in segment else text`.
The bracketed form is used exactly when the `speaker` KEY is present,
whatever its value. -/
def renderLine (seg : PySegment) : String :=
  match seg.speaker with
  | some sp => "[" ++ speakerValueStr sp ++ "]: " ++ pyStrip seg.text
  | none => pyStrip seg.text

/-- One SRT block of `generate_srt` (main.py lines 89-91), for the segment
at 0-based position `i`. -/
def srtBlock (i : ℕ) (seg : PySegment) : String :=
  Nat.repr (i + 1) ++ "\n" ++ formatTime seg.start ++ " --> " ++
    formatTime seg.stop ++ "\n" ++ renderLine seg ++ "\n\n"

/-- `generate_srt(segments)` (main.py lines 77-93). -/
def generate_srt (segments : List PySegment) : String :=
  (segments.enum.map (fun p => srtBlock p.1 p.2)).foldl (fun a b => a ++ b) ""

/-- A pydantic `Segment` (main.py lines 17-21): `start`, `end`, `text`
required, `speaker: Optional[str] = None`. -/
structure ModelSegment where
  start : ℚ
  stop : ℚ
  text : String
  speaker : Option String
deriving DecidableEq, Repr

/-- `segment_model.model_dump()` (main.py line 148): produces a dict in
which the `speaker` key is always present, with value `None` when the
field was never set. -/
def modelDump (s : ModelSegment) : PySegment :=
  ⟨s.start, s.stop, s.text, some s.speaker⟩

/-- The body of the `rename_speakers` loop (main.py lines 149-152):
`if segment.get("speaker") in request.speaker_map:` (a `None` value is
never a key of the `Dict[str, str]`), then replace only when the mapped
`new_name` is truthy, i.e. non-empty. -/
def updateSegment (speakerMap : List (String × String)) (seg : PySegment) :
    PySegment :=
  match seg.speaker with
  | some (some s) =>
    match speakerMap.lookup s with
    | some newName =>
      if newName = "" then seg else { seg with speaker := some (some newName) }
    | none => seg
  | _ => seg

/-- The `/rename_speakers` endpoint (main.py lines 140-160): dump each
pydantic segment, apply the speaker map, and render the result with
`generate_srt`.  Returns `(srt_content, segments)`. -/
def rename_speakers (speakerMap : List (String × String))
    (segments : List ModelSegment) : String × List PySegment :=
  let updated := segments.map (fun sm => updateSegment speakerMap (modelDump sm))
  (generate_srt updated, updated)

/-- One labelled interval of a pyannote diarization timeline, as produced
by the diarization collaborator and consumed by `refine_diarization`. -/
structure DiaInterval where
  start : ℚ
  stop : ℚ
  label : String
deriving DecidableEq, Repr

/-- One entry of the JSON-decoded `segments_json` array of
`/refine_diarization` (main.py line 214).  The decoded value is a raw
Python dict, so every key may be absent; a present `speaker` key may hold
`None` or a string. -/
structure JsonSegment where
  start : Option ℚ
  stop : Option ℚ
  text : Option String
  speaker : Option (Option String)
deriving DecidableEq, Repr

/-- `new_diarize_segments.crop(segment_span)` (main.py line 245), pyannote
intersection mode: clip every diarization interval to the span
`[s, e]` and keep the clipped pieces of positive duration. -/
def cropIntervals (dia : List DiaInterval) (s e : ℚ) : List DiaInterval :=
  dia.filterMap (fun iv =>
    if max iv.start s < min iv.stop e then
      some ⟨max iv.start s, min iv.stop e, iv.label⟩
    else none)

/-- Lexicographic comparison of code-point sequences: Python string `<=`. -/
def charListLe : List Char → List Char → Bool
  | [], _ => true
  | _ :: _, [] => false
  | a :: as, b :: bs =>
    if a < b then true else if b < a then false else charListLe as bs

/-- Python string comparison `a <= b`. -/
def strLe (a b : String) : Bool :=
  charListLe a.data b.data

/-- Insert into a sorted list of strings (helper of `sortStrings`). -/
def insertSorted (x : String) : List String → List String
  | [] => [x]
  | y :: ys => if strLe x y then x :: y :: ys else y :: insertSorted x ys

/-- Python `sorted` on strings (insertion sort, ascending). -/
def sortStrings : List String → List String
  | [] => []
  | x :: xs => insertSorted x (sortStrings xs)

/-- `overlapping_speakers.labels()` (main.py line 249): the distinct labels
of the cropped timeline, sorted; this is the iteration order of the
`speaker_durations` dict. -/
def labelsOf (cropped : List DiaInterval) : List String :=
  sortStrings (cropped.map (fun iv => iv.label)).dedup

/-- `overlapping_speakers.label_duration(label)` (main.py line 249): total
duration carried by `label` in the cropped timeline. -/
def labelDuration (cropped : List DiaInterval) (l : String) : ℚ :=
  ((cropped.filter (fun iv => iv.label == l)).map
    (fun iv => iv.stop - iv.start)).sum

/-- Python `max(iterable, key=d)` (main.py line 252): first element of the
iteration order attaining the maximal key; a later element replaces the
current best only when its key is strictly greater. -/
def argmaxLabel (d : String → ℚ) : List String → Option String
  | [] => none
  | l :: ls => some (ls.foldl (fun best x => if d best < d x then x else best) l)

/-- The dominant automatic label for the span `[s, e]` (main.py lines
245-252): `None` when the cropped timeline is empty (the
`if overlapping_speakers:` / `if speaker_durations:` guards), otherwise
the first sorted label of maximal total overlap duration. -/
def dominantSpeaker (dia : List DiaInterval) (s e : ℚ) : Option String :=
  let cropped := cropIntervals dia s e
  if cropped = [] then none
  else argmaxLabel (labelDuration cropped) (labelsOf cropped)

/-- One iteration of the speaker-map loop (main.py lines 236-257).
`segment.get('speaker')` collapses an absent key and a `None` value to
`None`; a falsy (empty) name or a name still matching the automatic
`SPEAKER_` convention is skipped; then `segment['start']` /
`segment['end']` raise `KeyError` when absent; finally the dominant
label is mapped to the hand-assigned name unless already mapped. -/
def processUserSegment (dia : List DiaInterval)
    (speakerMap : List (String × String)) (seg : JsonSegment) :
    Except String (List (String × String)) :=
  match seg.speaker.bind id with
  | none => .ok speakerMap
  | some name =>
    if name = "" ∨ strStartsWith name "SPEAKER_" then .ok speakerMap
    else
      match seg.start with
      | none => .error "KeyError: 'start'"
      | some s =>
        match seg.stop with
        | none => .error "KeyError: 'end'"
        | some e =>
          match dominantSpeaker dia s e with
          | none => .ok speakerMap
          | some dom =>
            if speakerMap.lookup dom = none then .ok (speakerMap ++ [(dom, name)])
            else .ok speakerMap

/-- The full speaker-map loop of `/refine_diarization` (main.py lines
234-257), threading the map through the user segments in order; a
`KeyError` aborts the loop. -/
def buildSpeakerMapE (dia : List DiaInterval) :
    List JsonSegment → List (String × String) →
    Except String (List (String × String))
  | [], m => .ok m
  | seg :: rest, m =>
    match processUserSegment dia m seg with
    | .error e => .error e
    | .ok m2 => buildSpeakerMapE dia rest m2

/-- `new_diarize_segments.rename_labels(generator=speaker_map.get)`
(main.py line 263): mapped labels are replaced, unmapped labels kept. -/
def renameLabels (speakerMap : List (String × String))
    (dia : List DiaInterval) : List DiaInterval :=
  dia.map (fun iv => { iv with label := (speakerMap.lookup iv.label).getD iv.label })

/-- The field accesses of main.py line 266
(`{"text": s["text"], "start": s["start"], "end": s["end"]}` for every
user segment): the first absent key raises `KeyError`. -/
def checkFields : List JsonSegment → Except String Unit
  | [] => .ok ()
  | seg :: rest =>
    match seg.text with
    | none => .error "KeyError: 'text'"
    | some _ =>
      match seg.start with
      | none => .error "KeyError: 'start'"
      | some _ =>
        match seg.stop with
        | none => .error "KeyError: 'end'"
        | some _ => checkFields rest

instance {ε α : Type} [DecidableEq ε] [DecidableEq α] :
    DecidableEq (Except ε α) := fun x y =>
  match x, y with
  | .error a, .error b => decidable_of_iff (a = b) (by simp)
  | .ok a, .ok b => decidable_of_iff (a = b) (by simp)
  | .error _, .ok _ => isFalse (by simp)
  | .ok _, .error _ => isFalse (by simp)

/-- The two failure channels of the endpoint: `HTTPException(400, ...)`
raised before the worker block, and the generic
`HTTPException(500, str(e))` produced by the `except Exception` handler
(also covering the unconfigured-diarizer case). -/
inductive HttpError where
  | badRequest : String → HttpError
  | internal : String → HttpError
deriving DecidableEq, Repr

/-- The `/refine_diarization` endpoint (main.py lines 204-279).

`segmentsJson = none` models a body that fails `json.loads` (answered
with HTTP 400 before anything else); `diarizeModel` carries the output
the external diarization collaborator would produce, `none` when the
model is not configured.  The returned flag records whether the external
diarizer was invoked before the request finished.  The success payload
is the computed speaker map together with the relabelled diarization;
the downstream `whisperx.assign_word_speakers` / `generate_srt` calls
operate on these and the (already validated) user segments. -/
def refine_diarization (segmentsJson : Option (List JsonSegment))
    (diarizeModel : Option (List DiaInterval)) :
    Except HttpError (List (String × String) × List DiaInterval) × Bool :=
  match segmentsJson with
  | none => (.error (.badRequest "Invalid segments_json format."), false)
  | some userSegments =>
    match diarizeModel with
    | none => (.error (.internal "Diarization model not loaded."), false)
    | some dia =>
      match buildSpeakerMapE dia userSegments [] with
      | .error e => (.error (.internal e), true)
      | .ok m =>
        match checkFields userSegments with
        | .error e => (.error (.internal e), true)
        | .ok _ => (.ok (m, renameLabels m dia), true)

theorem pyRound_intCast (z : ℤ) : pyRound ((z : ℚ)) = z := by
  simp only [pyRound, Int.floor_intCast, sub_self]
  norm_num

theorem formatTime_eq_core (q : ℚ) (z : ℤ) (h : q * 1000000 = (z : ℚ)) :
    formatTime q = formatTimeUsCore z := by
  rw [formatTime, h, pyRound_intCast]

theorem pyRound_add_int_even (x : ℚ) (n : ℤ) (hn : n % 2 = 0) :
    pyRound (x + (n : ℚ)) = pyRound x + n := by
  have hfl : ⌊x + (n : ℚ)⌋ = ⌊x⌋ + n := Int.floor_add_int x n
  have hfr : x + (n : ℚ) - ((⌊x⌋ + n : ℤ) : ℚ) = x - (⌊x⌋ : ℚ) := by
    push_cast
    ring
  have hp : (⌊x⌋ + n) % 2 = ⌊x⌋ % 2 := by omega
  simp only [pyRound, hfl, hfr, hp]
  split_ifs <;> ring

theorem formatTimeUsCore_period (w : ℤ) :
    formatTimeUsCore (w + 86400000000) = formatTimeUsCore w := by
  have h : (w + 86400000000) % 86400000000 = w % 86400000000 := by omega
  simp only [formatTimeUsCore, h]

theorem formatTime_div_millionth (m : ℕ) :
    formatTime ((m : ℚ) / 1000000) = formatTimeUsCore (m : ℤ) := by
  apply formatTime_eq_core
  push_cast
  field_simp

theorem formatTimeUsCore_trunc (n : ℕ) :
    formatTimeUsCore ((n / 1000 * 1000 : ℕ) : ℤ) = formatTimeUsCore ((n : ℕ) : ℤ) := by
  have e1 : (((n / 1000 * 1000 : ℕ) : ℤ) % 86400000000) / 1000000 =
      (((n : ℕ) : ℤ) % 86400000000) / 1000000 := by omega
  have e2 : ((((n / 1000 * 1000 : ℕ) : ℤ) % 86400000000) % 1000000) / 1000 =
      ((((n : ℕ) : ℤ) % 86400000000) % 1000000) / 1000 := by omega
  simp only [formatTimeUsCore, e1, e2]

/-- Claim C1, counterexample: the formatter reads `delta.seconds`, which
discards whole days, so at 90000 seconds (25 h) the hour field has
wrapped at 24 and the output is `01:00:00,000`, not the `25:00:00,000`
the claim states. -/
theorem format_time_90000_wraps :
    formatTime 90000 = "01:00:00,000" ∧ formatTime 90000 ≠ "25:00:00,000" := by
  have h : formatTime 90000 = formatTimeUsCore 90000000000 :=
    formatTime_eq_core 90000 90000000000 (by norm_num)
  rw [h]
  exact ⟨by decide, by decide⟩

/-- Claim C1 (amended): hours are NOT unbounded.  `format_time` is
periodic with period 24 hours (86400 s) — `timedelta` normalisation puts
whole days into `delta.days`, which the formatter ignores — and in
particular `format_time(90000)` renders as `01:00:00,000`. -/
theorem format_time_wraps_at_24_hours :
    (∀ q : ℚ, formatTime (q + 86400) = formatTime q) ∧
    formatTime 90000 = "01:00:00,000" := by
  constructor
  · intro q
    have h1 : (q + 86400) * 1000000 = q * 1000000 + ((86400000000 : ℤ) : ℚ) := by
      push_cast
      ring
    rw [formatTime, h1, pyRound_add_int_even _ _ (by decide),
      formatTimeUsCore_period, formatTime]
  · have h : formatTime 90000 = formatTimeUsCore 90000000000 :=
      formatTime_eq_core 90000 90000000000 (by norm_num)
    rw [h]
    decide

/-- Claim C3, counterexample: `timedelta` first rounds the seconds value
to whole microseconds (ties to even), so an input strictly below one
millisecond but within half a microsecond of it is rendered as `,001` —
rounded up, not truncated down.  The input here is
1999999/2000000000 s = 999.9995 µs. -/
theorem format_time_can_round_up :
    (0 : ℚ) ≤ 1999999/2000000000 ∧ (1999999/2000000000 : ℚ) < 1/1000 ∧
    formatTime (1999999/2000000000) = "00:00:00,001" := by
  refine ⟨by norm_num, by norm_num, ?_⟩
  have hq : (1999999/2000000000 : ℚ) * 1000000 = 1999999/2000 := by norm_num
  have hfl : ⌊(1999999/2000 : ℚ)⌋ = 999 := by
    rw [Int.floor_eq_iff]
    norm_num
  have hr : pyRound (1999999/2000) = 1000 := by
    simp only [pyRound, hfl]
    norm_num
  rw [formatTime, hq, hr]
  decide

/-- Claim C3 (amended): after `timedelta`'s initial rounding of the input
to a whole number of microseconds, the formatter truncates (never
rounds) microseconds down to whole milliseconds: dropping the
sub-millisecond microseconds of any whole-microsecond input leaves the
output unchanged.  The three cited values hold:
`format_time(0) = 00:00:00,000`,
`format_time(3661.0005) = 01:01:01,000` (the 500 µs are dropped), and
`format_time(86399.999) = 23:59:59,999`. -/
theorem format_time_truncates_to_milliseconds :
    (∀ n : ℕ, formatTime (((n / 1000 * 1000 : ℕ) : ℚ) / 1000000) =
        formatTime ((n : ℚ) / 1000000)) ∧
    formatTime 0 = "00:00:00,000" ∧
    formatTime (36610005/10000) = "01:01:01,000" ∧
    formatTime (86399999/1000) = "23:59:59,999" := by
  refine ⟨?_, ?_, ?_, ?_⟩
  · intro n
    rw [formatTime_div_millionth, formatTime_div_millionth, formatTimeUsCore_trunc]
  · rw [formatTime_eq_core 0 0 (by norm_num)]
    decide
  · rw [formatTime_eq_core (36610005/10000) 3661000500 (by norm_num)]
    decide
  · rw [formatTime_eq_core (86399999/1000) 86399999000 (by norm_num)]
    decide

/-- Claim C9, counterexample: `format_time(-1)` does not reject the
negative input; `timedelta` normalisation stores `-1 s` as
`days = -1, seconds = 86399`, and the formatter renders `23:59:59,000`. -/
theorem format_time_negative_one_not_rejected :
    formatTime (-1) = "23:59:59,000" := by
  rw [formatTime_eq_core (-1) (-1000000) (by norm_num)]
  decide

/-- Claim C9 (amended): negative inputs are not rejected — there is no
guard anywhere in `format_time` — and every negative input still
produces a well-formed `HH:MM:SS,mmm` timestamp (wrapped into the
previous day by the floor-mod normalisation of `timedelta`). -/
theorem format_time_negative_returns_timestamp :
    ∀ q : ℚ, q < 0 → ∃ h m s ms : ℕ,
      h < 24 ∧ m < 60 ∧ s < 60 ∧ ms < 1000 ∧
      formatTime q = padZero 2 h ++ ":" ++ padZero 2 m ++ ":" ++
        padZero 2 s ++ "," ++ padZero 3 ms := by
  intro q _
  refine ⟨((pyRound (q * 1000000) % 86400000000) / 1000000 / 3600).toNat,
    ((pyRound (q * 1000000) % 86400000000) / 1000000 % 3600 / 60).toNat,
    ((pyRound (q * 1000000) % 86400000000) / 1000000 % 3600 % 60).toNat,
    ((pyRound (q * 1000000) % 86400000000) % 1000000 / 1000).toNat,
    by omega, by omega, by omega, by omega, rfl⟩

/-- Witness for the C9 amended theorem at the concrete negative input -1. -/
theorem format_time_negative_returns_timestamp_witness :
    ∃ h m s ms : ℕ, h < 24 ∧ m < 60 ∧ s < 60 ∧ ms < 1000 ∧
      formatTime (-1) = padZero 2 h ++ ":" ++ padZero 2 m ++ ":" ++
        padZero 2 s ++ "," ++ padZero 3 ms :=
  format_time_negative_returns_timestamp (-1) (by norm_num)

/-- Claim C4: the rendered text line carries the bracket prefix exactly
when the `speaker` key is present (even with an empty-string value), and
a segment without the key is emitted as bare stripped text — never
prefixed, whatever the text contains. -/
theorem renderer_bracket_iff_key_present (seg : PySegment) :
    (∀ sp, seg.speaker = some sp →
      renderLine seg = "[" ++ speakerValueStr sp ++ "]: " ++ pyStrip seg.text) ∧
    (seg.speaker = some (some "") → renderLine seg = "[]: " ++ pyStrip seg.text) ∧
    (seg.speaker = none → renderLine seg = pyStrip seg.text) := by
  refine ⟨?_, ?_, ?_⟩
  · intro sp h
    simp only [renderLine, h]
  · intro h
    simp only [renderLine, h, speakerValueStr]
    rw [show ("[" : String) ++ "" ++ "]: " = "[]: " from by decide]
  · intro h
    simp only [renderLine, h]

/-- Witness for C4: a present-but-empty speaker is still bracketed, and a
segment with no speaker key stays bare even though its stripped text
itself starts with a bracket. -/
theorem renderer_bracket_iff_key_present_witness :
    renderLine ⟨0, 1, " hi ", some (some "")⟩ = "[]: hi" ∧
    renderLine ⟨0, 1, " [hi] ", none⟩ = "[hi]" := by
  constructor
  · rw [(renderer_bracket_iff_key_present ⟨0, 1, " hi ", some (some "")⟩).2.1 rfl]
    decide
  · rw [(renderer_bracket_iff_key_present ⟨0, 1, " [hi] ", none⟩).2.2 rfl]
    decide

/-- Claim C8: in `rename_speakers`, a segment's speaker is replaced by its
mapped value exactly when the current speaker is a key of the map and
the mapped value is non-empty; an unmapped speaker, or one mapped to the
empty string, is left unchanged — in particular the map
`[("SPEAKER_00", "")]` is a no-op on a `SPEAKER_00` segment. -/
theorem rename_speakers_policy :
    (∀ (m : List (String × String)) (seg : PySegment) (s : String),
      seg.speaker = some (some s) →
      (∀ v, m.lookup s = some v → ¬ v = "" →
        updateSegment m seg = { seg with speaker := some (some v) }) ∧
      (m.lookup s = none → updateSegment m seg = seg) ∧
      (m.lookup s = some "" → updateSegment m seg = seg)) ∧
    updateSegment [("SPEAKER_00", "")] ⟨0, 1, "hi", some (some "SPEAKER_00")⟩ =
      ⟨0, 1, "hi", some (some "SPEAKER_00")⟩ := by
  constructor
  · intro m seg s hs
    refine ⟨?_, ?_, ?_⟩
    · intro v hv hne
      simp only [updateSegment, hs, hv]
      rw [if_neg hne]
    · intro hv
      simp only [updateSegment, hs, hv]
    · intro hv
      simp [updateSegment, hs, hv]
  · decide

/-- Witness for C8: a mapped, non-empty name is applied; a speaker that is
not a key of the map is untouched. -/
theorem rename_speakers_policy_witness :
    updateSegment [("SPEAKER_00", "Alice")] ⟨0, 1, "hi", some (some "SPEAKER_00")⟩ =
      ⟨0, 1, "hi", some (some "Alice")⟩ ∧
    updateSegment [("SPEAKER_00", "Alice")] ⟨0, 1, "hi", some (some "SPEAKER_07")⟩ =
      ⟨0, 1, "hi", some (some "SPEAKER_07")⟩ := by
  constructor
  · exact (rename_speakers_policy.1 [("SPEAKER_00", "Alice")] _ "SPEAKER_00" rfl).1
      "Alice" (by decide) (by decide)
  · exact (rename_speakers_policy.1 [("SPEAKER_00", "Alice")] _ "SPEAKER_07" rfl).2.1
      (by decide)

theorem updateSegment_speaker_isSome (m : List (String × String))
    (seg : PySegment) (h : seg.speaker ≠ none) :
    ∃ y, (updateSegment m seg).speaker = some y := by
  obtain ⟨st, en, tx, spk⟩ := seg
  cases spk with
  | none => exact absurd rfl h
  | some x =>
    cases x with
    | none => exact ⟨none, by simp [updateSegment]⟩
    | some s =>
      simp only [updateSegment]
      cases m.lookup s with
      | none => exact ⟨some s, by simp⟩
      | some v =>
        by_cases hv : v = ""
        · exact ⟨some s, by simp [hv]⟩
        · exact ⟨some v, by simp [hv]⟩

/-- Claim C10: every segment coming out of `rename_speakers` carries a
`speaker` key (pydantic `model_dump` materialises it as `None` when the
input JSON had no speaker field), so the renderer bracket-prefixes every
such segment, and an input segment without a speaker renders as
`[None]: <text>` rather than as bare text. -/
theorem rename_speakers_output_always_has_speaker :
    ∀ (m : List (String × String)) (segs : List ModelSegment),
      (∀ seg ∈ (rename_speakers m segs).2, seg.speaker ≠ none) ∧
      (∀ seg ∈ (rename_speakers m segs).2, ∃ rest, renderLine seg = "[" ++ rest) ∧
      (∀ sm ∈ segs, sm.speaker = none →
        renderLine (updateSegment m (modelDump sm)) = "[None]: " ++ pyStrip sm.text) := by
  intro m segs
  refine ⟨?_, ?_, ?_⟩
  · intro seg hmem
    simp only [rename_speakers, List.mem_map] at hmem
    obtain ⟨sm, _, rfl⟩ := hmem
    obtain ⟨y, hy⟩ := updateSegment_speaker_isSome m (modelDump sm) (by simp [modelDump])
    simp [hy]
  · intro seg hmem
    simp only [rename_speakers, List.mem_map] at hmem
    obtain ⟨sm, _, rfl⟩ := hmem
    obtain ⟨y, hy⟩ := updateSegment_speaker_isSome m (modelDump sm) (by simp [modelDump])
    exact ⟨speakerValueStr y ++ "]: " ++
      pyStrip (updateSegment m (modelDump sm)).text,
      by simp [renderLine, hy, String.append_assoc]⟩
  · intro sm _ hnone
    have hd : modelDump sm = ⟨sm.start, sm.stop, sm.text, some none⟩ := by
      simp [modelDump, hnone]
    rw [hd]
    simp only [updateSegment, renderLine, speakerValueStr]
    rw [show ("[" : String) ++ "None" ++ "]: " = "[None]: " from by decide]

/-- Witness for C10: a segment with no speaker field, passed through the
rename operation with an empty map, renders as a `[None]:` line. -/
theorem rename_speakers_output_always_has_speaker_witness :
    renderLine (updateSegment [] (modelDump ⟨0, 1, " hi ", none⟩)) = "[None]: hi" := by
  rw [(rename_speakers_output_always_has_speaker [] [⟨0, 1, " hi ", none⟩]).2.2
    ⟨0, 1, " hi ", none⟩ (List.mem_singleton.mpr rfl) rfl]
  decide

theorem lookup_append_of_some (m l : List (String × String)) (k v : String)
    (h : m.lookup k = some v) : (m ++ l).lookup k = some v := by
  induction m with
  | nil => simp [List.lookup] at h
  | cons a as ih =>
    obtain ⟨a1, a2⟩ := a
    simp only [List.cons_append, List.lookup] at h ⊢
    cases hbeq : k == a1 with
    | true =>
      rw [hbeq] at h
      exact h
    | false =>
      rw [hbeq] at h
      exact ih h

theorem argmax_foldl_mem (d : String → ℚ) :
    ∀ (ls : List String) (b : String),
      ls.foldl (fun best x => if d best < d x then x else best) b = b ∨
      ls.foldl (fun best x => if d best < d x then x else best) b ∈ ls := by
  intro ls
  induction ls with
  | nil => intro b; exact Or.inl rfl
  | cons y ys ih =>
    intro b
    simp only [List.foldl_cons]
    by_cases hc : d b < d y
    · rw [if_pos hc]
      rcases ih y with h | h
      · right
        rw [h]
        exact List.mem_cons_self y ys
      · exact Or.inr (List.mem_cons_of_mem y h)
    · rw [if_neg hc]
      rcases ih b with h | h
      · exact Or.inl h
      · exact Or.inr (List.mem_cons_of_mem y h)

theorem argmax_foldl_ge (d : String → ℚ) :
    ∀ (ls : List String) (b : String),
      d b ≤ d (ls.foldl (fun best x => if d best < d x then x else best) b) ∧
      ∀ x ∈ ls, d x ≤ d (ls.foldl (fun best x => if d best < d x then x else best) b) := by
  intro ls
  induction ls with
  | nil =>
    intro b
    refine ⟨le_refl _, ?_⟩
    intro x hx
    cases hx
  | cons y ys ih =>
    intro b
    simp only [List.foldl_cons]
    by_cases hc : d b < d y
    · rw [if_pos hc]
      obtain ⟨h1, h2⟩ := ih y
      refine ⟨le_trans (le_of_lt hc) h1, ?_⟩
      intro x hx
      rcases List.mem_cons.mp hx with rfl | hx
      · exact h1
      · exact h2 x hx
    · rw [if_neg hc]
      obtain ⟨h1, h2⟩ := ih b
      refine ⟨h1, ?_⟩
      intro x hx
      rcases List.mem_cons.mp hx with rfl | hx
      · exact le_trans (le_of_not_lt hc) h1
      · exact h2 x hx

theorem dominantSpeaker_strict (dia : List DiaInterval) (s e : ℚ) (l : String)
    (hl : l ∈ labelsOf (cropIntervals dia s e))
    (hmax : ∀ l2 ∈ labelsOf (cropIntervals dia s e), l2 ≠ l →
      labelDuration (cropIntervals dia s e) l2 <
        labelDuration (cropIntervals dia s e) l) :
    dominantSpeaker dia s e = some l := by
  have hne : cropIntervals dia s e ≠ [] := by
    intro h0
    rw [h0] at hl
    simp [labelsOf, sortStrings] at hl
  simp only [dominantSpeaker]
  rw [if_neg hne]
  cases hls : labelsOf (cropIntervals dia s e) with
  | nil =>
    rw [hls] at hl
    cases hl
  | cons l0 ls =>
    rw [hls] at hl hmax
    simp only [argmaxLabel, Option.some.injEq]
    set d := labelDuration (cropIntervals dia s e) with hd
    set r := ls.foldl (fun best x => if d best < d x then x else best) l0 with hr
    have hmem : r ∈ l0 :: ls := by
      rcases argmax_foldl_mem d ls l0 with h | h
      · rw [hr, h]
        exact List.mem_cons_self l0 ls
      · exact List.mem_cons_of_mem l0 h
    have hge : ∀ x ∈ l0 :: ls, d x ≤ d r := by
      obtain ⟨h1, h2⟩ := argmax_foldl_ge d ls l0
      intro x hx
      rcases List.mem_cons.mp hx with rfl | hx
      · exact h1
      · exact h2 x hx
    by_contra hrl
    exact absurd (hge l hl) (not_le_of_lt (hmax r hmem hrl))

theorem cropExample :
    cropIntervals [⟨0, 5, "SPEAKER_00"⟩, ⟨5, 10, "SPEAKER_01"⟩] 2 7 =
      [⟨2, 5, "SPEAKER_00"⟩, ⟨5, 7, "SPEAKER_01"⟩] := by
  norm_num [cropIntervals, List.filterMap_cons, max_def, min_def]

theorem labelsExample :
    labelsOf [⟨2, 5, "SPEAKER_00"⟩, ⟨5, 7, "SPEAKER_01"⟩] =
      ["SPEAKER_00", "SPEAKER_01"] := by
  decide

theorem durExample0 :
    labelDuration [⟨2, 5, "SPEAKER_00"⟩, ⟨5, 7, "SPEAKER_01"⟩] "SPEAKER_00" = 3 := by
  simp +decide [labelDuration, List.filter_cons, beq_iff_eq]
  norm_num

theorem durExample1 :
    labelDuration [⟨2, 5, "SPEAKER_00"⟩, ⟨5, 7, "SPEAKER_01"⟩] "SPEAKER_01" = 2 := by
  simp +decide [labelDuration, List.filter_cons, beq_iff_eq]
  norm_num

theorem dominantExample :
    dominantSpeaker [⟨0, 5, "SPEAKER_00"⟩, ⟨5, 10, "SPEAKER_01"⟩] 2 7 =
      some "SPEAKER_00" := by
  simp only [dominantSpeaker, cropExample, labelsExample]
  rw [if_neg (by simp)]
  simp only [argmaxLabel, List.foldl_cons, List.foldl_nil, durExample0, durExample1]
  norm_num

/-- Claim C2: a hand-renamed user segment maps its name to the automatic
label with the strictly maximal total overlap duration inside its span
(provided that label is not yet mapped), and on the concrete example —
diarization `[0-5 SPEAKER_00, 5-10 SPEAKER_01]`, user segment
`2-7 "Alice"` (3 s vs 2 s overlap) — the computed map resolves
`SPEAKER_00` to `Alice` and never `SPEAKER_01`. -/
theorem reconciler_maps_strictly_dominant_label :
    (∀ (dia : List DiaInterval) (m : List (String × String)) (seg : JsonSegment)
      (s e : ℚ) (name l : String),
      seg.speaker = some (some name) → ¬ name = "" →
      strStartsWith name "SPEAKER_" = false →
      seg.start = some s → seg.stop = some e →
      l ∈ labelsOf (cropIntervals dia s e) →
      (∀ l2 ∈ labelsOf (cropIntervals dia s e), l2 ≠ l →
        labelDuration (cropIntervals dia s e) l2 <
          labelDuration (cropIntervals dia s e) l) →
      m.lookup l = none →
      processUserSegment dia m seg = .ok (m ++ [(l, name)])) ∧
    buildSpeakerMapE [⟨0, 5, "SPEAKER_00"⟩, ⟨5, 10, "SPEAKER_01"⟩]
      [⟨some 2, some 7, some "hello", some (some "Alice")⟩] [] =
      .ok [("SPEAKER_00", "Alice")] ∧
    List.lookup "SPEAKER_01" [("SPEAKER_00", "Alice")] = none := by
  refine ⟨?_, ?_, by decide⟩
  · intro dia m seg s e name l hsp hne hsw hst hen hl hmax hlk
    have hdom := dominantSpeaker_strict dia s e l hl hmax
    simp [processUserSegment, hsp, hst, hen, hdom, hsw, hne, hlk]
  · simp +decide [buildSpeakerMapE, processUserSegment, dominantExample]

/-- Witness for C2: the general conjunct applied to the concrete example
(the strict-dominance hypotheses hold with overlaps 3 s vs 2 s). -/
theorem reconciler_maps_strictly_dominant_label_witness :
    processUserSegment [⟨0, 5, "SPEAKER_00"⟩, ⟨5, 10, "SPEAKER_01"⟩] []
      ⟨some 2, some 7, some "hello", some (some "Alice")⟩ =
      .ok [("SPEAKER_00", "Alice")] := by
  have h := reconciler_maps_strictly_dominant_label.1
    [⟨0, 5, "SPEAKER_00"⟩, ⟨5, 10, "SPEAKER_01"⟩] []
    ⟨some 2, some 7, some "hello", some (some "Alice")⟩ 2 7 "Alice" "SPEAKER_00"
    rfl (by decide) (by decide) rfl rfl
    (by rw [cropExample, labelsExample]; decide)
    (by
      rw [cropExample, labelsExample]
      intro l2 hl2 hne2
      rcases List.mem_cons.mp hl2 with rfl | hl2
      · exact absurd rfl hne2
      · rcases List.mem_cons.mp hl2 with rfl | hl2
        · rw [durExample0, durExample1]
          norm_num
        · cases hl2)
    rfl
  simpa using h

theorem processUserSegment_ok_preserves (dia : List DiaInterval)
    (m : List (String × String)) (seg : JsonSegment)
    (m2 : List (String × String))
    (h : processUserSegment dia m seg = .ok m2) (k v : String)
    (hk : m.lookup k = some v) : m2.lookup k = some v := by
  obtain ⟨st, en, tx, spk⟩ := seg
  rcases spk with _ | (_ | name)
  · simp only [processUserSegment, Option.none_bind] at h
    cases h
    exact hk
  · simp only [processUserSegment, Option.some_bind, id_eq] at h
    cases h
    exact hk
  · by_cases hcond : name = "" ∨ strStartsWith name "SPEAKER_" = true
    · simp only [processUserSegment, Option.some_bind, id_eq, if_pos hcond] at h
      cases h
      exact hk
    · rcases st with _ | s
      · simp only [processUserSegment, Option.some_bind, id_eq, if_neg hcond] at h
        cases h
      · rcases en with _ | e
        · simp only [processUserSegment, Option.some_bind, id_eq, if_neg hcond] at h
          cases h
        · cases hdom : dominantSpeaker dia s e with
          | none =>
            simp only [processUserSegment, Option.some_bind, id_eq, if_neg hcond,
              hdom] at h
            cases h
            exact hk
          | some dom =>
            by_cases hlk : List.lookup dom m = none
            · simp only [processUserSegment, Option.some_bind, id_eq, if_neg hcond,
                hdom, if_pos hlk] at h
              cases h
              exact lookup_append_of_some _ _ _ _ hk
            · simp only [processUserSegment, Option.some_bind, id_eq, if_neg hcond,
                hdom, if_neg hlk] at h
              cases h
              exact hk

/-- Claim C6: the speaker map is first-assignment-wins — an entry already
present in the map survives the processing of every later user segment
unchanged, whatever those segments are dominant in and whatever names
they carry. -/
theorem speaker_map_first_assignment_wins :
    ∀ (dia : List DiaInterval) (segs : List JsonSegment)
      (m m2 : List (String × String)) (k v : String),
      m.lookup k = some v → buildSpeakerMapE dia segs m = .ok m2 →
      m2.lookup k = some v := by
  intro dia segs
  induction segs with
  | nil =>
    intro m m2 k v hk h
    simp only [buildSpeakerMapE] at h
    cases h
    exact hk
  | cons seg rest ih =>
    intro m m2 k v hk h
    simp only [buildSpeakerMapE] at h
    cases hp : processUserSegment dia m seg with
    | error e =>
      rw [hp] at h
      cases h
    | ok mm =>
      rw [hp] at h
      exact ih mm m2 k v (processUserSegment_ok_preserves dia m seg mm hp k v hk) h

/-- Witness for C6: a second user segment (Bob), also dominant in
SPEAKER_00 over the same diarization, leaves the SPEAKER_00 → Alice
entry in place. -/
theorem speaker_map_first_assignment_wins_witness :
    buildSpeakerMapE [⟨0, 5, "SPEAKER_00"⟩, ⟨5, 10, "SPEAKER_01"⟩]
      [⟨some 2, some 7, some "yo", some (some "Bob")⟩]
      [("SPEAKER_00", "Alice")] = .ok [("SPEAKER_00", "Alice")] ∧
    List.lookup "SPEAKER_00" [("SPEAKER_00", "Alice")] = some "Alice" := by
  have hb : buildSpeakerMapE [⟨0, 5, "SPEAKER_00"⟩, ⟨5, 10, "SPEAKER_01"⟩]
      [⟨some 2, some 7, some "yo", some (some "Bob")⟩]
      [("SPEAKER_00", "Alice")] = .ok [("SPEAKER_00", "Alice")] := by
    simp +decide [buildSpeakerMapE, processUserSegment, dominantExample]
  exact ⟨hb, speaker_map_first_assignment_wins
    [⟨0, 5, "SPEAKER_00"⟩, ⟨5, 10, "SPEAKER_01"⟩]
    [⟨some 2, some 7, some "yo", some (some "Bob")⟩]
    [("SPEAKER_00", "Alice")] [("SPEAKER_00", "Alice")]
    "SPEAKER_00" "Alice" (by decide) hb⟩

/-- Claim C7: a user segment whose speaker is absent, null, empty, or
still matches the automatic `SPEAKER_` naming convention contributes no
entry to the speaker map: the map-building step leaves any map
unchanged on such a segment. -/
theorem reconciler_skips_unedited (dia : List DiaInterval)
    (m : List (String × String)) (seg : JsonSegment)
    (h : seg.speaker = none ∨ seg.speaker = some none ∨
      seg.speaker = some (some "") ∨
      (∃ nm, seg.speaker = some (some nm) ∧ strStartsWith nm "SPEAKER_" = true)) :
    processUserSegment dia m seg = .ok m := by
  rcases h with h | h | h | ⟨nm, h, hsw⟩
  · simp [processUserSegment, h]
  · simp [processUserSegment, h]
  · simp [processUserSegment, h]
  · simp [processUserSegment, h, hsw]

/-- Witness for C7 at a segment still named by the automatic convention. -/
theorem reconciler_skips_unedited_witness :
    processUserSegment [] [] ⟨some 0, some 1, some "x", some (some "SPEAKER_02")⟩ =
      .ok [] :=
  reconciler_skips_unedited [] [] _
    (Or.inr (Or.inr (Or.inr ⟨"SPEAKER_02", rfl, by decide⟩)))

theorem checkFields_error_of_missing :
    ∀ segs : List JsonSegment,
      (∃ seg ∈ segs, seg.text = none ∨ seg.start = none ∨ seg.stop = none) →
      ∃ msg, checkFields segs = .error msg := by
  intro segs
  induction segs with
  | nil =>
    rintro ⟨seg, hmem, _⟩
    cases hmem
  | cons seg0 rest ih =>
    rintro ⟨seg, hmem, hbad⟩
    simp only [checkFields]
    cases ht : seg0.text with
    | none => exact ⟨_, rfl⟩
    | some t =>
      cases hs : seg0.start with
      | none => exact ⟨_, rfl⟩
      | some s =>
        cases he : seg0.stop with
        | none => exact ⟨_, rfl⟩
        | some e =>
          rcases List.mem_cons.mp hmem with rfl | hmem2
          · rcases hbad with hb | hb | hb
            · rw [ht] at hb
              cases hb
            · rw [hs] at hb
              cases hb
            · rw [he] at hb
              cases hb
          · exact ih ⟨seg, hmem2, hbad⟩

/-- Claim C5, counterexample: a syntactically valid JSON segment list
whose entry lacks its `start` key is not answered with the 400
invalid-input error before external work: the external diarizer is
invoked (flag `true`) and the request fails with the generic internal
500 produced by the `except Exception` handler catching the KeyError. -/
theorem refine_missing_field_is_internal_500 :
    refine_diarization (some [⟨none, none, some "hi", some (some "Alice")⟩])
      (some [⟨0, 5, "SPEAKER_00"⟩, ⟨5, 10, "SPEAKER_01"⟩]) =
      (.error (.internal "KeyError: 'start'"), true) := by
  decide

/-- Claim C5 (amended): only a body that fails JSON decoding is rejected
with the invalid-input (400) error before any external call; a decoded
segment list containing an entry that lacks start, end or text is not
validated up front — the external diarizer is invoked and the request
then fails with a generic internal (500) error. -/
theorem refine_validation_behavior :
    (∀ dia, refine_diarization none dia =
      (.error (.badRequest "Invalid segments_json format."), false)) ∧
    (∀ (segs : List JsonSegment) (dia : List DiaInterval),
      (∃ seg ∈ segs, seg.text = none ∨ seg.start = none ∨ seg.stop = none) →
      ∃ msg, refine_diarization (some segs) (some dia) =
        (.error (.internal msg), true)) := by
  constructor
  · intro dia
    rfl
  · intro segs dia hbad
    simp only [refine_diarization]
    cases hb : buildSpeakerMapE dia segs [] with
    | error e => exact ⟨e, rfl⟩
    | ok m =>
      obtain ⟨msg, hc⟩ := checkFields_error_of_missing segs hbad
      rw [hc]
      exact ⟨msg, rfl⟩

/-- Witness for the C5 amended theorem: a JSON decode failure is a 400
with no external call, and a segment missing its start key yields an
internal error after the diarizer ran. -/
theorem refine_validation_behavior_witness :
    refine_diarization none (some []) =
      (.error (.badRequest "Invalid segments_json format."), false) ∧
    ∃ msg, refine_diarization (some [⟨none, some 1, some "x", none⟩]) (some []) =
      (.error (.internal msg), true) :=
  ⟨refine_validation_behavior.1 (some []),
   refine_validation_behavior.2 [⟨none, some 1, some "x", none⟩] []
     ⟨⟨none, some 1, some "x", none⟩, List.mem_singleton.mpr rfl,
      Or.inr (Or.inl rfl)⟩⟩

